import Mathlib

/-
  Verification of the rust-kzg-node wrapper (src/src/lib.rs).

  Shallow embedding: byte buffers are lists of naturals, the external
  cryptographic backend (rust_kzg_blst) is a record of pure functions
  carrying the contracts the spec states for it, and the two unsafe C FFI
  calls are modelled at the buffer level, with an explicit out-of-bounds
  outcome (`none` / `.ub`) whenever a raw-pointer read or write would leave
  the allocated buffer.
-/

namespace RustKzgNode

/-- Protocol constant imported by src/src/lib.rs from rust_kzg_blst: bytes per G1 point. -/
def BYTES_PER_G1_POINT : Nat := 48

/-- Protocol constant imported by src/src/lib.rs from rust_kzg_blst: bytes per G2 point. -/
def BYTES_PER_G2_POINT : Nat := 96

/-- Modelled from the spec: the protocol blob size enforced by the backend
    Blob conversion (reference protocol: 131072 bytes). -/
def BYTES_PER_BLOB : Nat := 131072

/-- Modelled from the spec: the number of proof elements the backend cell-proof
    routine writes into its output buffer per blob, a protocol constant
    (32 in this configuration per the spec). The backend itself is an external
    collaborator and is not under src/. -/
def backendProofCount : Nat := 32

/-- The local binding `let cell_count = 32;` of lib.rs (lines 89 and 115). -/
def cell_count : Nat := 32

/-- Truncating cast to u32, as in `ret as u32` of check_c_kzg_ret. -/
def U32_MOD : Nat := 4294967296

/-- A KZG proof element: a fixed-size G1-point encoding (KzgProof of
    rust_kzg_blst; its to_bytes yields BYTES_PER_G1_POINT bytes). -/
structure KzgProof where
  bytes : List Nat
  len48 : bytes.length = BYTES_PER_G1_POINT

/-- `KzgProof::to_bytes()` used by proof_to_hex. -/
def KzgProof.to_bytes (p : KzgProof) : List Nat := p.bytes

/-- `KzgProof::default()` used to initialize the output buffer. -/
def KzgProof.defaultP : KzgProof :=
  ⟨List.replicate BYTES_PER_G1_POINT 0, by simp⟩

/-- The backend settings object (FsKZGSettings); opaque to the wrapper. -/
structure FsKZGSettings where
  data : Nat
deriving DecidableEq

/-- A backend-native blob (field-element representation); opaque to the wrapper. -/
structure Blob where
  elems : List Nat
deriving DecidableEq

/-- Modelled from the spec: the external cryptographic backend (rust_kzg_blst),
    out of scope for the repository and represented as pure functions.
    `decodeBlob` is the blob-to-field-element decoding applied after the length
    check; `computeProofs` is the cell-proof algorithm, a deterministic function
    of (settings, blob) yielding a status code and exactly `backendProofCount`
    proof elements (the count contract of compute_cells_and_kzg_proofs);
    `loadSetup` materializes settings from the trusted-setup points. -/
structure Backend where
  decodeBlob : List Nat → Except String Blob
  computeProofs : FsKZGSettings → Blob → Nat × List KzgProof
  loadSetup : List Nat → Nat → List Nat → Nat → List Nat → Nat → Nat → Nat × FsKZGSettings
  computeProofs_len : ∀ s b, (computeProofs s b).2.length = backendProofCount

/-- One lowercase hexadecimal digit, as produced by the hex crate. -/
def hexDigitChar (n : Nat) : Char :=
  if n < 10 then Char.ofNat (48 + n) else Char.ofNat (87 + n)

/-- `hex::encode`: each byte becomes high nibble then low nibble, lowercase. -/
def hexEncode (bs : List Nat) : String :=
  String.mk (List.flatten (bs.map (fun b => [hexDigitChar (b / 16 % 16), hexDigitChar (b % 16)])))

/-- lib.rs proof_to_hex: hex::encode(proof.to_bytes()). -/
def proof_to_hex (p : KzgProof) : String := hexEncode p.to_bytes

/-- Modelled from the spec: the error the backend Blob conversion reports —
    a wrong total length (with expected and actual), or content that does not
    decode to valid field elements. -/
inductive BlobError
  | wrongBlobLength (expected actual : Nat)
  | invalidEncoding (reason : String)
deriving DecidableEq

/-- The napi errors lib.rs constructs. `invalidArg` is the Status::InvalidArg
    error of load_trusted_setup; `blobConversion` wraps a Blob conversion
    failure (GenericFailure, message built from the backend error);
    `kzgFfi` is the error check_c_kzg_ret builds from a context string and a
    nonzero status code; `asyncJoin` is the GenericFailure built from a
    JoinError by compute_cell_proofs_batch. -/
inductive Err
  | invalidArg (context : String)
  | blobConversion (e : BlobError)
  | kzgFfi (context : String) (code : Nat)
  | asyncJoin (context : String)
deriving DecidableEq

/-- Modelled from the spec: `Blob::from_bytes` of rust_kzg_blst — the length
    check against the protocol blob size comes strictly first, then the
    backend decodes the content into field elements. -/
def Blob.from_bytes (be : Backend) (bytes : List Nat) : Except BlobError Blob :=
  if bytes.length = BYTES_PER_BLOB then
    match be.decodeBlob bytes with
    | Except.ok b => Except.ok b
    | Except.error r => Except.error (BlobError.invalidEncoding r)
  else Except.error (BlobError.wrongBlobLength BYTES_PER_BLOB bytes.length)

/-- lib.rs check_c_kzg_ret: Ok when `ret as u32 == 0`, otherwise a
    GenericFailure carrying the context and the code. -/
def check_c_kzg_ret (ret : Nat) (context : String) : Except Err Unit :=
  if ret % U32_MOD = 0 then Except.ok ()
  else Except.error (Err.kzgFfi context ret)

/-- Buffer-level model of the unsafe FFI call `compute_cells_and_kzg_proofs`:
    the backend writes exactly `backendProofCount` proof elements at the start
    of the output buffer. `none` models the undefined behavior of a write past
    the end of the allocation. -/
def ffiComputeCellsAndKzgProofs (be : Backend) (buf : List KzgProof) (blob : Blob)
    (s : FsKZGSettings) : Option (Nat × List KzgProof) :=
  if backendProofCount ≤ buf.length then
    let r := be.computeProofs s blob
    some (r.1, r.2 ++ buf.drop backendProofCount)
  else none

/-- Buffer-level model of the unsafe FFI call `load_trusted_setup`: the backend
    reads `num * point-size` bytes from each of the three raw pointers. `none`
    models the undefined behavior of a read past the end of an allocation. -/
def ffiLoadTrustedSetup (be : Backend) (g1m : List Nat) (n1 : Nat) (g1l : List Nat) (nl : Nat)
    (g2m : List Nat) (n2 : Nat) (n2l : Nat) : Option (Nat × FsKZGSettings) :=
  if n1 * BYTES_PER_G1_POINT ≤ g1m.length ∧ nl * BYTES_PER_G1_POINT ≤ g1l.length ∧
      n2 * BYTES_PER_G2_POINT ≤ g2m.length then
    some (be.loadSetup (g1m.take (n1 * BYTES_PER_G1_POINT)) n1
      (g1l.take (nl * BYTES_PER_G1_POINT)) nl
      (g2m.take (n2 * BYTES_PER_G2_POINT)) n2 n2l)
  else none

/-- Outcome of load_trusted_setup; `.ub` marks a run that violates the FFI
    memory contract (out-of-bounds access). -/
inductive LoadOutcome
  | ub
  | err (e : Err)
  | ok (s : FsKZGSettings)
deriving DecidableEq

/-- Outcome of compute_cell_proofs; `.ub` marks an FFI memory-contract
    violation. -/
inductive ComputeOutcome
  | ub
  | err (e : Err)
  | ok (res : List String)
deriving DecidableEq

/-- Outcome of compute_cell_proofs_batch; `.ub` marks an FFI memory-contract
    violation. -/
inductive BatchOutcome
  | ub
  | err (e : Err)
  | ok (res : List (List String))
deriving DecidableEq

/-- The napi wrapper object holding the loaded settings. -/
structure KzgWrapper where
  settings : FsKZGSettings

/-- lib.rs lines 47-81: KzgWrapper::load_trusted_setup. Checks that the
    g1_monomial length is a multiple of 48 and the g2_monomial length a
    multiple of 96; the g1_lagrange buffer is not checked, and the FFI call
    receives `num_g1_monomial` as the lagrange count. -/
def KzgWrapper.load_trusted_setup (be : Backend)
    (g1_monomial_bytes g1_lagrange_bytes g2_monomial_bytes : List Nat) : LoadOutcome :=
  let num_g1_monomial := g1_monomial_bytes.length / BYTES_PER_G1_POINT
  let num_g2_monomial := g2_monomial_bytes.length / BYTES_PER_G2_POINT
  if g1_monomial_bytes.length % BYTES_PER_G1_POINT ≠ 0 ∨
      g2_monomial_bytes.length % BYTES_PER_G2_POINT ≠ 0 then
    LoadOutcome.err (Err.invalidArg "G1 or G2 point byte length wrong")
  else
    match ffiLoadTrustedSetup be g1_monomial_bytes num_g1_monomial
        g1_lagrange_bytes num_g1_monomial g2_monomial_bytes num_g2_monomial num_g2_monomial with
    | none => LoadOutcome.ub
    | some (ret, settings) =>
      match check_c_kzg_ret ret "load trusted setup" with
      | Except.error e => LoadOutcome.err e
      | Except.ok _ => LoadOutcome.ok settings

/-- lib.rs lines 85-106: KzgWrapper::compute_cell_proofs. Converts the bytes
    to a Blob, allocates `cell_count` default proofs, calls the FFI, checks
    the status, and hex-encodes the proofs. -/
def KzgWrapper.compute_cell_proofs (be : Backend) (w : KzgWrapper)
    (blob_bytes : List Nat) : ComputeOutcome :=
  match Blob.from_bytes be blob_bytes with
  | Except.error e => ComputeOutcome.err (Err.blobConversion e)
  | Except.ok blob =>
    let proofs : List KzgProof := List.replicate cell_count KzgProof.defaultP
    match ffiComputeCellsAndKzgProofs be proofs blob w.settings with
    | none => ComputeOutcome.ub
    | some (ret, proofs1) =>
      match check_c_kzg_ret ret "generate proofs" with
      | Except.error e => ComputeOutcome.err e
      | Except.ok _ => ComputeOutcome.ok (proofs1.map proof_to_hex)

/-- The rayon closure of lib.rs lines 126-142: one batch item — allocate
    `cell_count` default proofs, call the FFI, check the status with the batch
    context, hex-encode. -/
def batchItem (be : Backend) (settings : FsKZGSettings) (blob : Blob) : ComputeOutcome :=
  let proofs : List KzgProof := List.replicate cell_count KzgProof.defaultP
  match ffiComputeCellsAndKzgProofs be proofs blob settings with
  | none => ComputeOutcome.ub
  | some (ret, proofs1) =>
    match check_c_kzg_ret ret "generate proofs batch" with
    | Except.error e => ComputeOutcome.err e
    | Except.ok _ => ComputeOutcome.ok (proofs1.map proof_to_hex)

/-- lib.rs lines 118-122: the validation pre-pass — `collect` over
    `Blob::from_bytes` of every buffer, short-circuiting at the first error
    (mapped to a napi error). -/
def collectBlobs (be : Backend) : List (List Nat) → Except Err (List Blob)
  | [] => Except.ok []
  | b :: rest =>
    match Blob.from_bytes be b with
    | Except.error e => Except.error (Err.blobConversion e)
    | Except.ok blob =>
      match collectBlobs be rest with
      | Except.error e => Except.error e
      | Except.ok blobs => Except.ok (blob :: blobs)

/-- The rayon `collect::<Result<Vec<_>>>` over the item outcomes: index-aligned
    on success, an item error fails the whole collection, and an FFI
    memory-contract violation in any item poisons the run. -/
def collectItems : List ComputeOutcome → BatchOutcome
  | [] => BatchOutcome.ok []
  | ComputeOutcome.ub :: _ => BatchOutcome.ub
  | ComputeOutcome.err e :: _ => BatchOutcome.err e
  | ComputeOutcome.ok r :: rest =>
    match collectItems rest with
    | BatchOutcome.ub => BatchOutcome.ub
    | BatchOutcome.err e => BatchOutcome.err e
    | BatchOutcome.ok rs => BatchOutcome.ok (r :: rs)

/-- The spawn_blocking closure of lib.rs lines 114-146: validate every blob,
    then map the batch item over all of them and collect. -/
def batchWorker (be : Backend) (settings : FsKZGSettings)
    (blobs_bytes : List (List Nat)) : BatchOutcome :=
  match collectBlobs be blobs_bytes with
  | Except.error e => BatchOutcome.err e
  | Except.ok blobs => collectItems (blobs.map (batchItem be settings))

/-- lib.rs line 149: `handle.await.map_err(...)` — a crashed worker (JoinError,
    modelled by `none`) is converted into a reported error; otherwise the
    worker outcome is delivered unchanged. -/
def bridgeDeliver (outcome : Option BatchOutcome) : BatchOutcome :=
  match outcome with
  | none => BatchOutcome.err (Err.asyncJoin "async task failed")
  | some r => r

/-- lib.rs lines 110-150: KzgWrapper::compute_cell_proofs_batch — run the
    worker on a cloned settings value and deliver its outcome through the
    bridge. -/
def KzgWrapper.compute_cell_proofs_batch (be : Backend) (w : KzgWrapper)
    (blobs_bytes : List (List Nat)) : BatchOutcome :=
  bridgeDeliver (some (batchWorker be w.settings blobs_bytes))

/-- A concrete backend used to evaluate the embedding on closed inputs:
    decoding always succeeds, the cell-proof routine returns status 0 and
    `backendProofCount` default proofs, setup loading returns status 0. -/
def beW : Backend where
  decodeBlob := fun bytes => Except.ok ⟨bytes⟩
  computeProofs := fun _ _ => (0, List.replicate backendProofCount KzgProof.defaultP)
  loadSetup := fun _ _ _ _ _ _ _ => (0, ⟨7⟩)
  computeProofs_len := fun _ _ => by simp

/-- A second concrete backend, identical to `beW` except for `loadSetup`. -/
def beW2 : Backend where
  decodeBlob := fun bytes => Except.ok ⟨bytes⟩
  computeProofs := fun _ _ => (0, List.replicate backendProofCount KzgProof.defaultP)
  loadSetup := fun _ _ _ _ _ _ _ => (1, ⟨9⟩)
  computeProofs_len := fun _ _ => by simp

/-- A concrete wrapper instance for closed evaluations. -/
def w0 : KzgWrapper := ⟨⟨7⟩⟩

/-- An all-zero blob buffer of the protocol blob size. -/
def blobZ : List Nat := List.replicate 131072 0

/-- The proof bundle the concrete backend produces for any blob, hex-encoded. -/
def bundleW : List String := List.replicate 32 (proof_to_hex KzgProof.defaultP)

/-! ### Helper lemmas -/

lemma ffi_on_alloc (be : Backend) (blob : Blob) (s : FsKZGSettings) :
    ffiComputeCellsAndKzgProofs be (List.replicate cell_count KzgProof.defaultP) blob s =
      some ((be.computeProofs s blob).1, (be.computeProofs s blob).2) := by
  unfold ffiComputeCellsAndKzgProofs
  simp [cell_count, backendProofCount]

lemma compute_of_from_bytes_ok (be : Backend) (w : KzgWrapper) (bytes : List Nat) (blob : Blob)
    (h : Blob.from_bytes be bytes = Except.ok blob) :
    KzgWrapper.compute_cell_proofs be w bytes =
      (match check_c_kzg_ret (be.computeProofs w.settings blob).1 "generate proofs" with
       | Except.error e => ComputeOutcome.err e
       | Except.ok _ =>
         ComputeOutcome.ok ((be.computeProofs w.settings blob).2.map proof_to_hex)) := by
  simp only [KzgWrapper.compute_cell_proofs, h, ffi_on_alloc]

lemma compute_of_from_bytes_err (be : Backend) (w : KzgWrapper) (bytes : List Nat) (e : BlobError)
    (h : Blob.from_bytes be bytes = Except.error e) :
    KzgWrapper.compute_cell_proofs be w bytes = ComputeOutcome.err (Err.blobConversion e) := by
  unfold KzgWrapper.compute_cell_proofs
  rw [h]

lemma batchItem_eq (be : Backend) (s : FsKZGSettings) (blob : Blob) :
    batchItem be s blob =
      (match check_c_kzg_ret (be.computeProofs s blob).1 "generate proofs batch" with
       | Except.error e => ComputeOutcome.err e
       | Except.ok _ =>
         ComputeOutcome.ok ((be.computeProofs s blob).2.map proof_to_hex)) := by
  simp only [batchItem, ffi_on_alloc]

lemma compute_ne_ub (be : Backend) (w : KzgWrapper) (bytes : List Nat) :
    KzgWrapper.compute_cell_proofs be w bytes ≠ ComputeOutcome.ub := by
  cases h : Blob.from_bytes be bytes with
  | error e => rw [compute_of_from_bytes_err be w bytes e h]; intro hc; cases hc
  | ok blob =>
    rw [compute_of_from_bytes_ok be w bytes blob h]
    cases check_c_kzg_ret (be.computeProofs w.settings blob).1 "generate proofs" <;>
      intro hc <;> cases hc

lemma batchItem_ne_ub (be : Backend) (s : FsKZGSettings) (blob : Blob) :
    batchItem be s blob ≠ ComputeOutcome.ub := by
  rw [batchItem_eq]
  cases check_c_kzg_ret (be.computeProofs s blob).1 "generate proofs batch" <;>
    intro hc <;> cases hc

lemma collectBlobs_ok (be : Backend) (bl : List (List Nat)) (blobs : List Blob)
    (h : collectBlobs be bl = Except.ok blobs) :
    blobs.length = bl.length ∧
    ∀ i (hi : i < bl.length) (hj : i < blobs.length),
      Blob.from_bytes be (bl.get ⟨i, hi⟩) = Except.ok (blobs.get ⟨i, hj⟩) := by
  induction bl generalizing blobs with
  | nil =>
    simp only [collectBlobs] at h
    cases h
    exact ⟨rfl, fun i hi => absurd hi (Nat.not_lt_zero i)⟩
  | cons b rest ih =>
    simp only [collectBlobs] at h
    cases hb : Blob.from_bytes be b with
    | error e => rw [hb] at h; cases h
    | ok blob =>
      rw [hb] at h
      cases hr : collectBlobs be rest with
      | error e => rw [hr] at h; cases h
      | ok bs =>
        rw [hr] at h
        cases h
        obtain ⟨hlen, hget⟩ := ih bs hr
        refine ⟨by simp [hlen], ?_⟩
        intro i hi hj
        cases i with
        | zero => simpa using hb
        | succ k =>
          simp only [List.get_cons_succ]
          exact hget k (Nat.lt_of_succ_lt_succ hi) (Nat.lt_of_succ_lt_succ hj)

lemma collectBlobs_err (be : Backend) (bl : List (List Nat)) (e : Err)
    (h : collectBlobs be bl = Except.error e) :
    ∃ e0, e = Err.blobConversion e0 ∧
      ∃ i, ∃ hi : i < bl.length, Blob.from_bytes be (bl.get ⟨i, hi⟩) = Except.error e0 := by
  induction bl with
  | nil => simp only [collectBlobs] at h; cases h
  | cons b rest ih =>
    simp only [collectBlobs] at h
    cases hb : Blob.from_bytes be b with
    | error e0 =>
      rw [hb] at h
      cases h
      exact ⟨e0, rfl, 0, Nat.succ_pos _, hb⟩
    | ok blob =>
      rw [hb] at h
      cases hr : collectBlobs be rest with
      | error e1 =>
        rw [hr] at h
        cases h
        obtain ⟨e0, he, i, hi, hf⟩ := ih hr
        exact ⟨e0, he, i + 1, Nat.succ_lt_succ hi, hf⟩
      | ok bs => rw [hr] at h; cases h

lemma collectBlobs_all_ok (be : Backend) (bl : List (List Nat))
    (h : ∀ b ∈ bl, ∃ blob, Blob.from_bytes be b = Except.ok blob) :
    ∃ blobs, collectBlobs be bl = Except.ok blobs := by
  induction bl with
  | nil => exact ⟨[], rfl⟩
  | cons b rest ih =>
    obtain ⟨blob, hb⟩ := h b (List.mem_cons_self b rest)
    obtain ⟨blobs, hr⟩ := ih (fun x hx => h x (List.mem_cons_of_mem b hx))
    refine ⟨blob :: blobs, ?_⟩
    simp only [collectBlobs]
    rw [hb, hr]

lemma collectBlobs_prefix_err (be : Backend) (pre post : List (List Nat)) (bad : List Nat)
    (e0 : BlobError) (hpre : ∀ b ∈ pre, ∃ blob, Blob.from_bytes be b = Except.ok blob)
    (hbad : Blob.from_bytes be bad = Except.error e0) :
    collectBlobs be (pre ++ bad :: post) = Except.error (Err.blobConversion e0) := by
  induction pre with
  | nil => simp only [List.nil_append, collectBlobs]; rw [hbad]
  | cons b rest ih =>
    obtain ⟨blob, hb⟩ := hpre b (List.mem_cons_self b rest)
    simp only [List.cons_append, collectBlobs, List.append_eq]
    rw [hb, ih (fun x hx => hpre x (List.mem_cons_of_mem b hx))]

lemma collectBlobs_contains_bad (be : Backend) (pre post : List (List Nat)) (bad : List Nat)
    (e0 : BlobError) (hbad : Blob.from_bytes be bad = Except.error e0) :
    ∀ blobs, collectBlobs be (pre ++ bad :: post) ≠ Except.ok blobs := by
  induction pre with
  | nil =>
    intro blobs h
    simp only [List.nil_append, collectBlobs] at h
    rw [hbad] at h
    cases h
  | cons b rest ih =>
    intro blobs h
    simp only [List.cons_append, collectBlobs, List.append_eq] at h
    cases hb : Blob.from_bytes be b with
    | error e => rw [hb] at h; cases h
    | ok blob =>
      rw [hb] at h
      cases hr : collectBlobs be (rest ++ bad :: post) with
      | error e => rw [hr] at h; cases h
      | ok bs => exact ih bs hr

lemma collectItems_ok (items : List ComputeOutcome) (rs : List (List String))
    (h : collectItems items = BatchOutcome.ok rs) :
    rs.length = items.length ∧
    ∀ i (hi : i < items.length) (hj : i < rs.length),
      items.get ⟨i, hi⟩ = ComputeOutcome.ok (rs.get ⟨i, hj⟩) := by
  induction items generalizing rs with
  | nil =>
    simp only [collectItems] at h
    cases h
    exact ⟨rfl, fun i hi => absurd hi (Nat.not_lt_zero i)⟩
  | cons x rest ih =>
    cases x with
    | ub => simp only [collectItems] at h; cases h
    | err e => simp only [collectItems] at h; cases h
    | ok r =>
      simp only [collectItems] at h
      cases hr : collectItems rest with
      | ub => rw [hr] at h; cases h
      | err e => rw [hr] at h; cases h
      | ok rs0 =>
        rw [hr] at h
        cases h
        obtain ⟨hlen, hget⟩ := ih rs0 hr
        refine ⟨by simp [hlen], ?_⟩
        intro i hi hj
        cases i with
        | zero => simp
        | succ k =>
          simp only [List.get_cons_succ]
          exact hget k (Nat.lt_of_succ_lt_succ hi) (Nat.lt_of_succ_lt_succ hj)

lemma collectItems_ne_ub (items : List ComputeOutcome)
    (h : ∀ x ∈ items, x ≠ ComputeOutcome.ub) :
    collectItems items ≠ BatchOutcome.ub := by
  induction items with
  | nil => intro hc; cases hc
  | cons x rest ih =>
    cases x with
    | ub => exact absurd rfl (h ComputeOutcome.ub (List.mem_cons_self _ _))
    | err e => intro hc; simp only [collectItems] at hc; cases hc
    | ok r =>
      simp only [collectItems]
      cases hr : collectItems rest with
      | ub => exact absurd hr (ih (fun y hy => h y (List.mem_cons_of_mem _ hy)))
      | err e => intro hc; cases hc
      | ok rs => intro hc; cases hc

lemma collectItems_err (items : List ComputeOutcome) (e : Err)
    (h : collectItems items = BatchOutcome.err e) :
    ∃ x ∈ items, x = ComputeOutcome.err e := by
  induction items with
  | nil => simp only [collectItems] at h; cases h
  | cons x rest ih =>
    cases x with
    | ub => simp only [collectItems] at h; cases h
    | err e1 =>
      simp only [collectItems] at h
      cases h
      exact ⟨ComputeOutcome.err e, List.mem_cons_self _ _, rfl⟩
    | ok r =>
      simp only [collectItems] at h
      cases hr : collectItems rest with
      | ub => rw [hr] at h; cases h
      | err e1 =>
        rw [hr] at h
        cases h
        obtain ⟨y, hy, hye⟩ := ih hr
        exact ⟨y, List.mem_cons_of_mem _ hy, hye⟩
      | ok rs => rw [hr] at h; cases h

lemma collectItems_exists_err (items : List ComputeOutcome)
    (hub : ∀ x ∈ items, x ≠ ComputeOutcome.ub)
    (h : ∃ x ∈ items, ∃ e, x = ComputeOutcome.err e) :
    ∃ e, collectItems items = BatchOutcome.err e := by
  induction items with
  | nil => obtain ⟨x, hx, _⟩ := h; cases hx
  | cons x rest ih =>
    cases x with
    | ub => exact absurd rfl (hub ComputeOutcome.ub (List.mem_cons_self _ _))
    | err e => exact ⟨e, by simp only [collectItems]⟩
    | ok r =>
      obtain ⟨y, hy, e, hye⟩ := h
      rcases List.mem_cons.1 hy with hy0 | hy1
      · rw [hy0] at hye; cases hye
      · obtain ⟨e1, hr⟩ := ih (fun z hz => hub z (List.mem_cons_of_mem _ hz)) ⟨y, hy1, e, hye⟩
        refine ⟨e1, ?_⟩
        simp only [collectItems]
        rw [hr]

lemma batch_eq_worker (be : Backend) (w : KzgWrapper) (bl : List (List Nat)) :
    KzgWrapper.compute_cell_proofs_batch be w bl = batchWorker be w.settings bl := rfl

lemma check_ret_ok (ret : Nat) (ctx : String) (h : ret % U32_MOD = 0) :
    check_c_kzg_ret ret ctx = Except.ok () := by
  unfold check_c_kzg_ret
  rw [if_pos h]

lemma check_ret_err (ret : Nat) (ctx : String) (h : ret % U32_MOD ≠ 0) :
    check_c_kzg_ret ret ctx = Except.error (Err.kzgFfi ctx ret) := by
  unfold check_c_kzg_ret
  rw [if_neg h]

lemma batch_ne_ub (be : Backend) (w : KzgWrapper) (bl : List (List Nat)) :
    KzgWrapper.compute_cell_proofs_batch be w bl ≠ BatchOutcome.ub := by
  rw [batch_eq_worker]
  unfold batchWorker
  cases hc : collectBlobs be bl with
  | error e => intro h; cases h
  | ok blobs =>
    apply collectItems_ne_ub
    intro x hx
    obtain ⟨blob, _, hb⟩ := List.mem_map.1 hx
    rw [← hb]
    exact batchItem_ne_ub be w.settings blob

lemma from_bytes_congr (be1 be2 : Backend) (h : be1.decodeBlob = be2.decodeBlob)
    (bytes : List Nat) : Blob.from_bytes be1 bytes = Blob.from_bytes be2 bytes := by
  unfold Blob.from_bytes
  rw [h]

lemma batchItem_congr (be1 be2 : Backend) (h : be1.computeProofs = be2.computeProofs)
    (s : FsKZGSettings) (blob : Blob) : batchItem be1 s blob = batchItem be2 s blob := by
  rw [batchItem_eq, batchItem_eq, h]

lemma collectBlobs_congr (be1 be2 : Backend) (h : be1.decodeBlob = be2.decodeBlob)
    (bl : List (List Nat)) : collectBlobs be1 bl = collectBlobs be2 bl := by
  induction bl with
  | nil => rfl
  | cons b rest ih =>
    simp only [collectBlobs]
    rw [from_bytes_congr be1 be2 h, ih]

lemma compute_item_ok_iff (be : Backend) (w : KzgWrapper) (bytes : List Nat) (blob : Blob)
    (h : Blob.from_bytes be bytes = Except.ok blob) (r : List String) :
    KzgWrapper.compute_cell_proofs be w bytes = ComputeOutcome.ok r ↔
      batchItem be w.settings blob = ComputeOutcome.ok r := by
  rw [compute_of_from_bytes_ok be w bytes blob h, batchItem_eq]
  by_cases hr : (be.computeProofs w.settings blob).1 % U32_MOD = 0
  · rw [check_ret_ok _ _ hr, check_ret_ok _ _ hr]
  · rw [check_ret_err _ _ hr, check_ret_err _ _ hr]
    constructor <;> (intro hc; cases hc)

lemma compute_item_err_iff (be : Backend) (w : KzgWrapper) (bytes : List Nat) (blob : Blob)
    (h : Blob.from_bytes be bytes = Except.ok blob) :
    (∃ e, KzgWrapper.compute_cell_proofs be w bytes = ComputeOutcome.err e) ↔
      (∃ e, batchItem be w.settings blob = ComputeOutcome.err e) := by
  rw [compute_of_from_bytes_ok be w bytes blob h, batchItem_eq]
  by_cases hr : (be.computeProofs w.settings blob).1 % U32_MOD = 0
  · rw [check_ret_ok _ _ hr, check_ret_ok _ _ hr]
  · rw [check_ret_err _ _ hr, check_ret_err _ _ hr]
    constructor <;> (intro _; exact ⟨_, rfl⟩)

lemma from_bytes_wrong_length (be : Backend) (bytes : List Nat)
    (h : bytes.length ≠ BYTES_PER_BLOB) :
    Blob.from_bytes be bytes =
      Except.error (BlobError.wrongBlobLength BYTES_PER_BLOB bytes.length) := by
  unfold Blob.from_bytes
  rw [if_neg h]

lemma hexEncode_length (bs : List Nat) : (hexEncode bs).length = 2 * bs.length := by
  unfold hexEncode
  induction bs with
  | nil => rfl
  | cons b rest ih =>
    simp only [List.map_cons, List.flatten_cons, String.length] at ih ⊢
    simp only [List.length_append, List.length_cons, List.length_nil]
    omega

/-! ### Claim theorems -/

/-- Claim C1: both the single-proof operation and every batch item allocate the
    proof output buffer with exactly the element count the backend cell-proof
    routine writes (`cell_count = backendProofCount`), before the FFI call, so
    under the backend write contract neither operation can ever reach the
    out-of-bounds outcome of the FFI model. -/
theorem C1_proof_buffer_exact (be : Backend) (w : KzgWrapper) (bytes : List Nat)
    (bl : List (List Nat)) :
    cell_count = backendProofCount ∧
    (List.replicate cell_count KzgProof.defaultP).length = backendProofCount ∧
    KzgWrapper.compute_cell_proofs be w bytes ≠ ComputeOutcome.ub ∧
    KzgWrapper.compute_cell_proofs_batch be w bl ≠ BatchOutcome.ub :=
  ⟨rfl, by simp [cell_count, backendProofCount], compute_ne_ub be w bytes, batch_ne_ub be w bl⟩

/-- Claim C2 (code bug): load_trusted_setup never validates the g1_lagrange
    buffer. With a 48-byte g1_monomial, a 49-byte g1_lagrange (length not a
    multiple of 48, and a mismatched element count) passes undetected and the
    backend is invoked, succeeding; and with an empty g1_lagrange the FFI read
    of one lagrange point leaves the buffer (undefined behavior) for every
    backend — instead of the MalformedSetup error the claim requires before
    any backend call. -/
theorem C2_lagrange_unchecked :
    (List.replicate 49 (0 : Nat)).length % BYTES_PER_G1_POINT ≠ 0 ∧
    KzgWrapper.load_trusted_setup beW (List.replicate 48 0) (List.replicate 49 0)
      (List.replicate 96 0) = LoadOutcome.ok ⟨7⟩ ∧
    (∀ be : Backend, KzgWrapper.load_trusted_setup be (List.replicate 48 0) []
      (List.replicate 96 0) = LoadOutcome.ub) := by
  refine ⟨by decide, by decide, ?_⟩
  intro be
  simp [KzgWrapper.load_trusted_setup, ffiLoadTrustedSetup,
    BYTES_PER_G1_POINT, BYTES_PER_G2_POINT]

/-- Claim C3: a byte buffer whose length is not the protocol blob size 131072
    makes the single-proof operation fail with the wrong-blob-length error
    carrying expected and actual lengths, independently of the backend (the
    length check precedes any backend-native reinterpretation), and every
    batch containing such a buffer fails. -/
theorem C3_wrong_blob_length (be : Backend) (w : KzgWrapper) (bytes : List Nat)
    (h : bytes.length ≠ 131072) :
    KzgWrapper.compute_cell_proofs be w bytes =
      ComputeOutcome.err (Err.blobConversion (BlobError.wrongBlobLength 131072 bytes.length)) ∧
    ∀ pre post, ∃ e, KzgWrapper.compute_cell_proofs_batch be w (pre ++ bytes :: post) =
      BatchOutcome.err e := by
  have hb := from_bytes_wrong_length be bytes h
  constructor
  · exact compute_of_from_bytes_err be w bytes _ hb
  · intro pre post
    rw [batch_eq_worker]
    unfold batchWorker
    cases hc : collectBlobs be (pre ++ bytes :: post) with
    | error e => exact ⟨e, rfl⟩
    | ok blobs => exact absurd hc (collectBlobs_contains_bad be pre post bytes _ hb blobs)

/-- Witness for C3 at the empty buffer. -/
theorem C3_wrong_blob_length_witness :
    ([] : List Nat).length ≠ 131072 ∧
    KzgWrapper.compute_cell_proofs beW w0 [] =
      ComputeOutcome.err
        (Err.blobConversion (BlobError.wrongBlobLength 131072 ([] : List Nat).length)) :=
  ⟨by decide, (C3_wrong_blob_length beW w0 [] (by decide)).1⟩

lemma batch_ok_spec (be : Backend) (w : KzgWrapper) (bl : List (List Nat))
    (res : List (List String))
    (h : KzgWrapper.compute_cell_proofs_batch be w bl = BatchOutcome.ok res) :
    res.length = bl.length ∧
    ∀ i (hi : i < bl.length) (hj : i < res.length),
      ∃ blob, Blob.from_bytes be (bl.get ⟨i, hi⟩) = Except.ok blob ∧
        batchItem be w.settings blob = ComputeOutcome.ok (res.get ⟨i, hj⟩) := by
  rw [batch_eq_worker] at h
  unfold batchWorker at h
  cases hc : collectBlobs be bl with
  | error e => rw [hc] at h; cases h
  | ok blobs =>
    rw [hc] at h
    obtain ⟨hlen1, hget1⟩ := collectBlobs_ok be bl blobs hc
    obtain ⟨hlen2, hget2⟩ := collectItems_ok _ res h
    rw [List.length_map] at hlen2
    refine ⟨by omega, ?_⟩
    intro i hi hj
    have hib : i < blobs.length := by omega
    have him : i < (blobs.map (batchItem be w.settings)).length := by
      rw [List.length_map]; exact hib
    have hx := hget2 i him hj
    have hmap : (blobs.map (batchItem be w.settings)).get ⟨i, him⟩ =
        batchItem be w.settings (blobs.get ⟨i, hib⟩) := by
      simp [List.get_eq_getElem, List.getElem_map]
    rw [hmap] at hx
    exact ⟨blobs.get ⟨i, hib⟩, hget1 i hi hib, hx⟩

/-- Claim C4: a batch whose blob list contains a blob failing validation (all
    earlier blobs validating) fails with exactly that blob's validation error,
    for any settings and for any backend sharing the same decoding — so no
    result list is returned and the backend proof computation cannot influence
    (and is not consulted for) the outcome. -/
theorem C4_batch_failfast (be1 be2 : Backend) (w1 w2 : KzgWrapper)
    (pre post : List (List Nat)) (bad : List Nat) (e0 : BlobError)
    (hdec : be1.decodeBlob = be2.decodeBlob)
    (hpre : ∀ b ∈ pre, ∃ blob, Blob.from_bytes be1 b = Except.ok blob)
    (hbad : Blob.from_bytes be1 bad = Except.error e0) :
    KzgWrapper.compute_cell_proofs_batch be1 w1 (pre ++ bad :: post) =
      BatchOutcome.err (Err.blobConversion e0) ∧
    KzgWrapper.compute_cell_proofs_batch be2 w2 (pre ++ bad :: post) =
      BatchOutcome.err (Err.blobConversion e0) := by
  have h1 : collectBlobs be1 (pre ++ bad :: post) = Except.error (Err.blobConversion e0) :=
    collectBlobs_prefix_err be1 pre post bad e0 hpre hbad
  have h2 : collectBlobs be2 (pre ++ bad :: post) = Except.error (Err.blobConversion e0) := by
    rw [← collectBlobs_congr be1 be2 hdec]
    exact h1
  constructor
  · rw [batch_eq_worker]
    simp only [batchWorker, h1]
  · rw [batch_eq_worker]
    simp only [batchWorker, h2]

/-- Witness for C4 at a one-element batch holding an empty (wrong-length)
    buffer, with two backends differing in their proof routine. -/
theorem C4_batch_failfast_witness :
    KzgWrapper.compute_cell_proofs_batch beW w0 ([] ++ [] :: []) =
      BatchOutcome.err (Err.blobConversion (BlobError.wrongBlobLength 131072 0)) ∧
    KzgWrapper.compute_cell_proofs_batch beW2 w0 ([] ++ [] :: []) =
      BatchOutcome.err (Err.blobConversion (BlobError.wrongBlobLength 131072 0)) :=
  C4_batch_failfast beW beW2 w0 w0 [] [] [] (BlobError.wrongBlobLength 131072 0) rfl
    (fun b hb => absurd hb (List.not_mem_nil b))
    (from_bytes_wrong_length beW [] (by decide))

/-- Claim C5: whenever the batch operation succeeds on N blobs the returned
    sequence has exactly N elements, and its i-th element is the proof bundle
    the (deterministic) per-item computation produces from the i-th input blob
    — the index alignment is a function of the inputs alone, so it cannot
    depend on any completion order. -/
theorem C5_batch_order (be : Backend) (w : KzgWrapper) (bl : List (List Nat))
    (res : List (List String))
    (h : KzgWrapper.compute_cell_proofs_batch be w bl = BatchOutcome.ok res) :
    res.length = bl.length ∧
    ∀ i (hi : i < bl.length) (hj : i < res.length),
      ∃ blob, Blob.from_bytes be (bl.get ⟨i, hi⟩) = Except.ok blob ∧
        batchItem be w.settings blob = ComputeOutcome.ok (res.get ⟨i, hj⟩) :=
  batch_ok_spec be w bl res h

lemma blobZ_length : blobZ.length = BYTES_PER_BLOB := by
  rw [blobZ, BYTES_PER_BLOB, List.length_replicate]

lemma from_bytes_blobZ : Blob.from_bytes beW blobZ = Except.ok ⟨blobZ⟩ := by
  unfold Blob.from_bytes
  rw [if_pos blobZ_length]
  rfl

lemma retW_ok (s : FsKZGSettings) (b : Blob) : (beW.computeProofs s b).1 % U32_MOD = 0 := by
  simp [beW, U32_MOD]

lemma computeW_eval : KzgWrapper.compute_cell_proofs beW w0 blobZ = ComputeOutcome.ok bundleW := by
  rw [compute_of_from_bytes_ok beW w0 blobZ _ from_bytes_blobZ]
  rw [check_ret_ok _ _ (retW_ok _ _)]
  simp [beW, bundleW, backendProofCount, List.map_replicate]

lemma itemW_eval (b : Blob) :
    batchItem beW w0.settings b = ComputeOutcome.ok bundleW := by
  rw [batchItem_eq, check_ret_ok _ _ (retW_ok _ _)]
  simp [beW, bundleW, backendProofCount, List.map_replicate]

lemma collectBlobs_singleton (be : Backend) (bytes : List Nat) (blob : Blob)
    (h : Blob.from_bytes be bytes = Except.ok blob) :
    collectBlobs be [bytes] = Except.ok [blob] := by
  simp only [collectBlobs]
  rw [h]

lemma batch_of_collect (be : Backend) (w : KzgWrapper) (bl : List (List Nat)) (blobs : List Blob)
    (h : collectBlobs be bl = Except.ok blobs) :
    KzgWrapper.compute_cell_proofs_batch be w bl =
      collectItems (List.map (batchItem be w.settings) blobs) := by
  rw [batch_eq_worker]
  unfold batchWorker
  rw [h]

lemma batchW_eval :
    KzgWrapper.compute_cell_proofs_batch beW w0 [blobZ] = BatchOutcome.ok [bundleW] := by
  rw [batch_of_collect beW w0 [blobZ] [⟨blobZ⟩]
    (collectBlobs_singleton beW blobZ ⟨blobZ⟩ from_bytes_blobZ)]
  rw [List.map_cons, List.map_nil, itemW_eval]
  rfl

/-- Witness for C5 at a one-element batch of the all-zero protocol-size blob. -/
theorem C5_batch_order_witness :
    [bundleW].length = [blobZ].length ∧
    ∀ i (hi : i < [blobZ].length) (hj : i < [bundleW].length),
      ∃ blob, Blob.from_bytes beW ([blobZ].get ⟨i, hi⟩) = Except.ok blob ∧
        batchItem beW w0.settings blob = ComputeOutcome.ok ([bundleW].get ⟨i, hj⟩) :=
  C5_batch_order beW w0 [blobZ] [bundleW] batchW_eval

/-- Claim C6: the parallel batch operation is content-equivalent to running
    the single-proof operation sequentially over the blobs in input order —
    on success the i-th batch result equals the single-proof result for the
    i-th blob, and the batch fails exactly when some single-proof call on one
    of the blobs would fail. -/
theorem C6_batch_equiv_sequential (be : Backend) (w : KzgWrapper) (bl : List (List Nat)) :
    (∀ res, KzgWrapper.compute_cell_proofs_batch be w bl = BatchOutcome.ok res →
      res.length = bl.length ∧
      ∀ i (hi : i < bl.length) (hj : i < res.length),
        KzgWrapper.compute_cell_proofs be w (bl.get ⟨i, hi⟩) =
          ComputeOutcome.ok (res.get ⟨i, hj⟩)) ∧
    ((∃ e, KzgWrapper.compute_cell_proofs_batch be w bl = BatchOutcome.err e) ↔
      ∃ i, ∃ hi : i < bl.length, ∃ e,
        KzgWrapper.compute_cell_proofs be w (bl.get ⟨i, hi⟩) = ComputeOutcome.err e) := by
  constructor
  · intro res h
    obtain ⟨hlen, hget⟩ := batch_ok_spec be w bl res h
    refine ⟨hlen, ?_⟩
    intro i hi hj
    obtain ⟨blob, hfb, hitem⟩ := hget i hi hj
    exact (compute_item_ok_iff be w _ blob hfb _).2 hitem
  · constructor
    · rintro ⟨e, he⟩
      rw [batch_eq_worker] at he
      unfold batchWorker at he
      cases hc : collectBlobs be bl with
      | error e1 =>
        rw [hc] at he
        cases he
        obtain ⟨e0, he0, i, hi, hf⟩ := collectBlobs_err be bl _ hc
        subst he0
        exact ⟨i, hi, Err.blobConversion e0, compute_of_from_bytes_err be w _ e0 hf⟩
      | ok blobs =>
        rw [hc] at he
        obtain ⟨x, hx, hxe⟩ := collectItems_err _ e he
        obtain ⟨blob, hbm, hbx⟩ := List.mem_map.1 hx
        obtain ⟨j, hbj⟩ := List.mem_iff_get.1 hbm
        obtain ⟨hlen1, hget1⟩ := collectBlobs_ok be bl blobs hc
        have hjl : (j : Nat) < bl.length := by
          have := j.isLt
          omega
        have hfb : Blob.from_bytes be (bl.get ⟨j, hjl⟩) = Except.ok blob := by
          rw [← hbj]
          have := hget1 j hjl j.isLt
          rwa [Fin.eta] at this
        have hie : ∃ e1, batchItem be w.settings blob = ComputeOutcome.err e1 :=
          ⟨e, by rw [hbx, hxe]⟩
        obtain ⟨e2, hce⟩ := (compute_item_err_iff be w _ blob hfb).2 hie
        exact ⟨j, hjl, e2, hce⟩
    · rintro ⟨i, hi, e, hce⟩
      rw [batch_eq_worker]
      unfold batchWorker
      cases hc : collectBlobs be bl with
      | error e1 => exact ⟨e1, rfl⟩
      | ok blobs =>
        obtain ⟨hlen1, hget1⟩ := collectBlobs_ok be bl blobs hc
        have hib : i < blobs.length := by omega
        have hfb : Blob.from_bytes be (bl.get ⟨i, hi⟩) = Except.ok (blobs.get ⟨i, hib⟩) :=
          hget1 i hi hib
        have hie : ∃ e1, batchItem be w.settings (blobs.get ⟨i, hib⟩) = ComputeOutcome.err e1 :=
          (compute_item_err_iff be w _ _ hfb).1 ⟨e, hce⟩
        obtain ⟨e1, hitem⟩ := hie
        have hmem : batchItem be w.settings (blobs.get ⟨i, hib⟩) ∈
            blobs.map (batchItem be w.settings) :=
          List.mem_map.2 ⟨blobs.get ⟨i, hib⟩, List.get_mem blobs i hib, rfl⟩
        obtain ⟨e2, hcoll⟩ := collectItems_exists_err _
          (fun x hx => by
            obtain ⟨b0, _, hb0⟩ := List.mem_map.1 hx
            rw [← hb0]
            exact batchItem_ne_ub be w.settings b0)
          ⟨_, hmem, e1, hitem⟩
        exact ⟨e2, hcoll⟩

/-- Witness for C6 at a successful one-element batch. -/
theorem C6_batch_equiv_sequential_witness :
    [bundleW].length = [blobZ].length ∧
    ∀ i (hi : i < [blobZ].length) (hj : i < [bundleW].length),
      KzgWrapper.compute_cell_proofs beW w0 ([blobZ].get ⟨i, hi⟩) =
        ComputeOutcome.ok ([bundleW].get ⟨i, hj⟩) :=
  (C6_batch_equiv_sequential beW w0 [blobZ]).1 [bundleW] batchW_eval

/-- Claim C7: the proof computation is a pure function of the setup and the
    blob bytes — two invocations yield identical results, and nothing besides
    the backend decoding and proof routine (in particular no other backend
    state, randomness, or I/O) can influence the single or batch outcome. -/
theorem C7_deterministic (be1 be2 : Backend) (w : KzgWrapper) (b : List Nat)
    (bl : List (List Nat)) (hdec : be1.decodeBlob = be2.decodeBlob)
    (hcp : be1.computeProofs = be2.computeProofs) :
    KzgWrapper.compute_cell_proofs be1 w b = KzgWrapper.compute_cell_proofs be1 w b ∧
    KzgWrapper.compute_cell_proofs be1 w b = KzgWrapper.compute_cell_proofs be2 w b ∧
    KzgWrapper.compute_cell_proofs_batch be1 w bl =
      KzgWrapper.compute_cell_proofs_batch be2 w bl := by
  have hitem : batchItem be1 w.settings = batchItem be2 w.settings :=
    funext (batchItem_congr be1 be2 hcp w.settings)
  refine ⟨rfl, ?_, ?_⟩
  · cases hfb : Blob.from_bytes be1 b with
    | error e =>
      rw [compute_of_from_bytes_err be1 w b e hfb,
        compute_of_from_bytes_err be2 w b e (by rw [← from_bytes_congr be1 be2 hdec]; exact hfb)]
    | ok blob =>
      rw [compute_of_from_bytes_ok be1 w b blob hfb,
        compute_of_from_bytes_ok be2 w b blob
          (by rw [← from_bytes_congr be1 be2 hdec]; exact hfb), hcp]
  · rw [batch_eq_worker, batch_eq_worker]
    unfold batchWorker
    rw [collectBlobs_congr be1 be2 hdec, hitem]

/-- Witness for C7 with two backends differing only in their setup loader. -/
theorem C7_deterministic_witness :
    KzgWrapper.compute_cell_proofs beW w0 blobZ = KzgWrapper.compute_cell_proofs beW w0 blobZ ∧
    KzgWrapper.compute_cell_proofs beW w0 blobZ = KzgWrapper.compute_cell_proofs beW2 w0 blobZ ∧
    KzgWrapper.compute_cell_proofs_batch beW w0 [blobZ] =
      KzgWrapper.compute_cell_proofs_batch beW2 w0 [blobZ] :=
  C7_deterministic beW beW2 w0 blobZ [blobZ] rfl rfl

/-- Claim C8: whenever the single-proof operation succeeds it returns exactly
    32 proof elements regardless of blob content, each the hex encoding of a
    48-byte group-element encoding (hence 96 characters long). -/
theorem C8_bundle_shape (be : Backend) (w : KzgWrapper) (bytes : List Nat) (res : List String)
    (h : KzgWrapper.compute_cell_proofs be w bytes = ComputeOutcome.ok res) :
    res.length = 32 ∧
    ∀ x ∈ res, ∃ bs : List Nat, bs.length = 48 ∧ x = hexEncode bs ∧ x.length = 96 := by
  cases hfb : Blob.from_bytes be bytes with
  | error e => rw [compute_of_from_bytes_err be w bytes e hfb] at h; cases h
  | ok blob =>
    rw [compute_of_from_bytes_ok be w bytes blob hfb] at h
    by_cases hr : (be.computeProofs w.settings blob).1 % U32_MOD = 0
    · rw [check_ret_ok _ _ hr] at h
      cases h
      constructor
      · rw [List.length_map]
        exact be.computeProofs_len w.settings blob
      · intro x hx
        obtain ⟨p, _, hpx⟩ := List.mem_map.1 hx
        refine ⟨p.to_bytes, p.len48, ?_, ?_⟩
        · rw [← hpx]
          rfl
        · rw [← hpx]
          show (hexEncode p.to_bytes).length = 96
          rw [hexEncode_length]
          simp only [KzgProof.to_bytes]
          rw [p.len48]
          decide
    · rw [check_ret_err _ _ hr] at h
      cases h

/-- Witness for C8 at the all-zero protocol-size blob. -/
theorem C8_bundle_shape_witness :
    bundleW.length = 32 ∧
    ∀ x ∈ bundleW, ∃ bs : List Nat, bs.length = 48 ∧ x = hexEncode bs ∧ x.length = 96 :=
  C8_bundle_shape beW w0 blobZ bundleW computeW_eval

/-- Claim C10: the batch operation on an empty blob sequence succeeds with the
    empty result list, for every backend and settings (so neither validation
    nor the backend can influence the outcome). -/
theorem C10_empty_batch (be : Backend) (w : KzgWrapper) :
    KzgWrapper.compute_cell_proofs_batch be w [] = BatchOutcome.ok [] := rfl

end RustKzgNode
